import Mathlib

set_option maxRecDepth 8000

/-!
Shallow embedding of src/Script/geolocate.py: the record aggregation,
filtering, grouping and sorting logic of the geolocate script.  Pure data
flows are modelled directly; the external geoip2 reader is a parameter
mapping an address string to a lookup outcome; exceptions are modelled with
Except.
-/

/-- Shape of a successful lookup result returned by the external geoip2
reader, flattened into one structure: record.city.name,
record.subdivisions.most_specific.name, record.country.name,
record.country.iso_code, record.location.latitude,
record.location.longitude, record.location.accuracy_radius.  Coordinates
are modelled as rationals and the accuracy radius as an integer. -/
structure GeoRecord where
  cityName : Option String
  subdivisionName : Option String
  countryName : Option String
  countryIsoCode : Option String
  latitude : Option Rat
  longitude : Option Rat
  accuracyRadius : Option Int
  deriving DecidableEq

/-- Possible outcomes of reader.city(ip): a record, the two address-level
errors caught on line 108 (AddressNotFoundError for an address absent from
the database, ValueError for a string that is not a valid IP), and the two
database-level errors re-raised on lines 110-111. -/
inductive LookupOutcome where
  | found (r : GeoRecord)
  | addressNotFound
  | invalidAddress
  | fileError
  | permissionError
  deriving DecidableEq

/-- read_record, lines 105-113: address-level failures resolve to no
record, database-level failures propagate as exceptions. -/
def read_record (reader : String → LookupOutcome) (ip : String) :
    Except String (Option GeoRecord) :=
  match reader ip with
  | .found r => .ok (some r)
  | .addressNotFound => .ok none
  | .invalidAddress => .ok none
  | .fileError => .error "database file not found"
  | .permissionError => .error "database file permission denied"

/-- Local city of line 130: the city name, defaulting to Unknown. -/
def cityOf (r : GeoRecord) : String :=
  match r.cityName with
  | some c => c
  | none => "Unknown"

/-- Local state of lines 131-132: the most specific subdivision name,
defaulting to Unknown. -/
def stateOf (r : GeoRecord) : String :=
  match r.subdivisionName with
  | some s => s
  | none => "Unknown"

/-- Local country_name of line 133: the country name, defaulting to
Unknown. -/
def countryNameOf (r : GeoRecord) : String :=
  match r.countryName with
  | some c => c
  | none => "Unknown"

/-- Local country_iso of line 134: a parenthesised ISO suffix when the ISO
code is present, the empty string otherwise. -/
def countryIsoOf (r : GeoRecord) : String :=
  match r.countryIsoCode with
  | some i => " (" ++ i ++ ")"
  | none => ""

/-- Local country_full of line 135. -/
def countryFullOf (r : GeoRecord) : String :=
  countryNameOf r ++ countryIsoOf r

/-- Lines 137-145: the search-filter decision add_record for a found
record.  The compiled pattern is modelled as an optional Boolean matcher
on strings. -/
def add_record (searchPat : Option (String → Bool)) (r : GeoRecord)
    (ip : String) : Bool :=
  match searchPat with
  | some p => p (countryFullOf r) || p (stateOf r) || p (cityOf r) || p ip
  | none => true

/-- Line 188: re.compile of the raw pattern with re.IGNORECASE, modelled
as a matcher that only ever sees the lowercased text it is searched
against. -/
def compileIgnoreCase (m : String → Bool) : String → Bool :=
  fun s => m s.toLower

/-- Python truthiness of an optional numeric value as used on line 160:
an absent coordinate and a zero coordinate are both falsy. -/
def coordTruthy : Option Rat → Bool
  | none => false
  | some q => decide (q ≠ 0)

/-- Round a rational to the nearest integer, ties to even, the rounding
performed by the fixed-point numeric formatting of the f-string. -/
def roundHalfEven (q : Rat) : Int :=
  let f : Int := ⌊q⌋
  if q - f < (1 : Rat) / 2 then f
  else if (1 : Rat) / 2 < q - f then f + 1
  else if f % 2 = 0 then f else f + 1

/-- Decimal digits of a natural number padded on the left with zeros to
the given width. -/
def padNat (n : Nat) (w : Nat) : String :=
  let s := toString n
  String.mk (List.replicate (w - s.length) '0') ++ s

/-- The conversion .9f of line 161: fixed point with nine digits after
the decimal point. -/
def formatFixed9 (q : Rat) : String :=
  let n : Int := roundHalfEven (q * 1000000000)
  let sign := if n < 0 then "-" else ""
  let m : Nat := n.natAbs
  sign ++ toString (m / 1000000000) ++ "." ++ padNat (m % 1000000000) 9

/-- The full format spec 0>3.9f of line 161: the .9f text padded on the
left with zeros to width three (the pad never fires since the .9f text
has at least eleven characters, but it is kept for fidelity). -/
def formatCoord (q : Rat) : String :=
  let s := formatFixed9 q
  String.mk (List.replicate (3 - s.length) '0') ++ s

/-- Local maps_url of lines 157-163: the Google Maps URL when both
coordinates are truthy, Null otherwise. -/
def mapsUrlOf (r : GeoRecord) : String :=
  if coordTruthy r.latitude && coordTruthy r.longitude then
    "https://maps.google.com/maps?q=" ++ formatCoord (r.latitude.getD 0)
      ++ "," ++ formatCoord (r.longitude.getD 0) ++ "&z=15"
  else "Null"

/-- Local radius of line 165: the accuracy radius rendered as text,
defaulting to Null. -/
def radiusStrOf (r : GeoRecord) : String :=
  match r.accuracyRadius with
  | some n => toString n
  | none => "Null"

/-- The five display lines appended for one contributing address in
ip_address grouping mode, lines 167-173. -/
def detailBlock (r : GeoRecord) : List String :=
  ["Maps URL:   " ++ mapsUrlOf r,
   "Radius(km): " ++ radiusStrOf r,
   "Country:    " ++ countryFullOf r,
   "State:      " ++ stateOf r,
   "City:       " ++ cityOf r]

/-- The group key and the appended value lines for one surviving found
record, lines 150-173.  The final branch is the ip_address (default)
mode. -/
def groupEntry (group_by : String) (r : GeoRecord) (ip : String) :
    String × List String :=
  if group_by = "country" then (countryFullOf r, [ip])
  else if group_by = "state/region" then (stateOf r ++ countryIsoOf r, [ip])
  else if group_by = "city" then (cityOf r ++ countryIsoOf r, [ip])
  else (ip, detailBlock r)

/-- The insertion-ordered mapping result_dict, modelled as an association
list; defaultdict access appends to an existing entry and otherwise adds
a fresh key at the end, which is exactly the insertion order a Python
dict records. -/
def updateAL (al : List (String × List String)) (k : String)
    (new : List String) : List (String × List String) :=
  match al with
  | [] => [(k, new)]
  | (k2, v) :: rest =>
      if k2 = k then (k2, v ++ new) :: rest
      else (k2, v) :: updateAL rest k new

/-- The two accumulators of get_records: result_dict and unknown_ips. -/
structure RecState where
  result : List (String × List String)
  unknown : List String
  deriving DecidableEq

/-- One iteration of the loop of get_records, lines 120-175, on a single
address. -/
def processIp (reader : String → LookupOutcome)
    (searchPat : Option (String → Bool)) (filtered : List String)
    (group_by : String) (st : RecState) (ip : String) :
    Except String RecState :=
  if ip ∈ filtered then .ok st
  else
    match read_record reader ip with
    | .error e => .error e
    | .ok none => .ok { st with unknown := st.unknown ++ [ip] }
    | .ok (some record) =>
        if add_record searchPat record ip then
          let e := groupEntry group_by record ip
          .ok { st with result := updateAL st.result e.1 e.2 }
        else .ok st

/-- The loop of get_records over the remaining addresses. -/
def get_records_go (reader : String → LookupOutcome)
    (searchPat : Option (String → Bool)) (filtered : List String)
    (group_by : String) : RecState → List String → Except String RecState
  | st, [] => .ok st
  | st, ip :: rest =>
      match processIp reader searchPat filtered group_by st ip with
      | .error e => .error e
      | .ok st2 => get_records_go reader searchPat filtered group_by st2 rest

/-- get_records, lines 116-177, with the Python parameter order: returns
the grouped result mapping and the list of unresolved addresses, or the
propagated database-level error. -/
def get_records (reader : String → LookupOutcome) (ip_list : List String)
    (searchPat : Option (String → Bool)) (filtered : List String)
    (group_by : String) :
    Except String (List (String × List String) × List String) :=
  (get_records_go reader searchPat filtered group_by ⟨[], []⟩ ip_list).map
    fun st => (st.result, st.unknown)

/-- Lines 198-207 of main: a limit below one leaves the match list whole,
otherwise the list is cut to its first limit elements. -/
def applyLimit (limit : Int) (found : List String) : List String :=
  if limit < 1 then found else found.take limit.toNat

/-- Lexicographic comparison of character lists by code point, the order
Python uses to compare strings. -/
def charListLe : List Char → List Char → Bool
  | [], _ => true
  | _ :: _, [] => false
  | a :: as, b :: bs =>
      if a < b then true else if b < a then false else charListLe as bs

/-- Python string comparison: lexicographic on the code points. -/
def strLeB (a b : String) : Bool :=
  charListLe a.data b.data

/-- Stable insertion of one item into a list already sorted descending
for the given Boolean weak order: the item lands before the first element
it weakly beats, so equal items keep their original relative order. -/
def insertLe {α : Type} (le : α → α → Bool) (a : α) : List α → List α
  | [] => [a]
  | b :: l => if le b a then a :: b :: l else b :: insertLe le a l

/-- Stable sort descending for the given Boolean weak order, the
behaviour of Python sorted with reverse set. -/
def sortRevBy {α : Type} (le : α → α → Bool) : List α → List α
  | [] => []
  | a :: l => insertLe le a (sortRevBy le l)

/-- Lines 217-218 of main: the grouped items sorted descending, keyed on
the number of accumulated entries in the three attribute modes and on
the element at index 2 of the accumulated lines (a string, compared as
Python compares strings) otherwise. -/
def sortResult (group_by : String)
    (items : List (String × List String)) : List (String × List String) :=
  if group_by = "country" ∨ group_by = "state/region" ∨ group_by = "city" then
    sortRevBy (fun x y => decide (x.2.length ≤ y.2.length)) items
  else
    sortRevBy (fun x y => strLeB (x.2.getD 2 "") (y.2.getD 2 "")) items

/-- The three attribute grouping modes of the group option; any other
group value takes the final (ip_address) branch of the loop. -/
def isAttrMode (g : String) : Bool :=
  g == "country" || g == "state/region" || g == "city"

/-- An address is listed inside some group of the result mapping (the
form aggregation takes in the three attribute modes, where each group
accumulates raw addresses). -/
def InValues (al : List (String × List String)) (x : String) : Prop :=
  ∃ kv ∈ al, x ∈ kv.2

/-- An address is a key of the result mapping (the form aggregation takes
in ip_address mode, where the key is the raw address). -/
def IsKeyOf (al : List (String × List String)) (x : String) : Prop :=
  ∃ kv ∈ al, kv.1 = x

/-- An input address was aggregated into some group of the result
mapping, in the sense fitting the selected grouping mode. -/
def Aggregated (g : String) (al : List (String × List String))
    (x : String) : Prop :=
  if isAttrMode g then InValues al x else IsKeyOf al x

/-- The per-address classification the loop body applies: an address is
routed to the unresolved bucket exactly when it is not excluded and its
lookup resolves to no record. -/
def isUnresolvedIp (reader : String → LookupOutcome)
    (filtered : List String) (ip : String) : Bool :=
  !(decide (ip ∈ filtered)) &&
    (match read_record reader ip with
     | .ok none => true
     | _ => false)

/-- The per-address classification the loop body applies: an address
contributes to the result mapping exactly when it is not excluded, its
lookup finds a record and the record passes the search filter. -/
def contributedIp (reader : String → LookupOutcome)
    (searchPat : Option (String → Bool)) (filtered : List String)
    (ip : String) : Bool :=
  !(decide (ip ∈ filtered)) &&
    (match read_record reader ip with
     | .ok (some r) => add_record searchPat r ip
     | _ => false)

/-- Sample found record for concrete runs: all fields present. -/
def recParis : GeoRecord :=
  { cityName := some "Paris", subdivisionName := some "Ile-de-France",
    countryName := some "France", countryIsoCode := some "FR",
    latitude := some 48, longitude := some 2, accuracyRadius := some 20 }

/-- Sample record with a zero latitude but both coordinates present. -/
def recZeroLat : GeoRecord :=
  { cityName := none, subdivisionName := none, countryName := none,
    countryIsoCode := none, latitude := some 0, longitude := some 10,
    accuracyRadius := none }

/-- Sample record with no coordinates. -/
def recNoCoords : GeoRecord :=
  { cityName := some "Paris", subdivisionName := none,
    countryName := some "France", countryIsoCode := some "FR",
    latitude := none, longitude := none, accuracyRadius := some 5 }

/-- Sample record with a country name but no ISO code. -/
def recFranceNoIso : GeoRecord :=
  { cityName := some "Paris", subdivisionName := some "Ile-de-France",
    countryName := some "France", countryIsoCode := none,
    latitude := some 48, longitude := some 2, accuracyRadius := some 20 }

/-- Sample record with every optional field absent. -/
def recAllNone : GeoRecord :=
  { cityName := none, subdivisionName := none, countryName := none,
    countryIsoCode := none, latitude := none, longitude := none,
    accuracyRadius := none }

/-- A reader under which every address is absent from the database. -/
def readerNotFound : String → LookupOutcome := fun _ => .addressNotFound

/-- A reader with one resolvable address. -/
def readerW : String → LookupOutcome := fun ip =>
  if ip = "1.1.1.1" then .found recParis else .addressNotFound

/-- Concrete grouped item: key 1.1.1.1 with a detail block naming
Albania and radius 500. -/
def itemAlb : String × List String :=
  ("1.1.1.1",
   ["Maps URL:   Null", "Radius(km): 500", "Country:    Albania",
    "State:      Berat", "City:       Berat"])

/-- Concrete grouped item: key 2.2.2.2 with a detail block naming
Zimbabwe and radius 100. -/
def itemZim : String × List String :=
  ("2.2.2.2",
   ["Maps URL:   Null", "Radius(km): 100", "Country:    Zimbabwe",
    "State:      Harare", "City:       Harare"])

/-- The ip_address-mode sort claim C2 describes, read off the claim
wording: groups ordered descending on the radius value of the detail
block (the radius is the element at index 1 of the block; the item
values here are chosen so that comparing the radius lines as strings
and comparing the radius numbers agree).  Defined for comparison with
the sortResult the code performs. -/
def sortResultRadius (items : List (String × List String)) :
    List (String × List String) :=
  sortRevBy (fun x y => strLeB (x.2.getD 1 "") (y.2.getD 1 "")) items

theorem InValues_updateAL (al : List (String × List String)) (k : String)
    (new : List String) (x : String) :
    InValues (updateAL al k new) x ↔ InValues al x ∨ x ∈ new := by
  induction al with
  | nil => simp [updateAL, InValues]
  | cons kv rest ih =>
      obtain ⟨k2, v⟩ := kv
      by_cases hk : k2 = k
      · subst hk
        simp only [updateAL, if_pos rfl, InValues, List.mem_cons]
        aesop
      · simp only [updateAL, if_neg hk, InValues, List.mem_cons] at ih ⊢
        aesop

theorem IsKeyOf_updateAL (al : List (String × List String)) (k : String)
    (new : List String) (x : String) :
    IsKeyOf (updateAL al k new) x ↔ IsKeyOf al x ∨ k = x := by
  induction al with
  | nil => simp [updateAL, IsKeyOf]
  | cons kv rest ih =>
      obtain ⟨k2, v⟩ := kv
      by_cases hk : k2 = k
      · subst hk
        simp only [updateAL, if_pos rfl, IsKeyOf, List.mem_cons]
        aesop
      · simp only [updateAL, if_neg hk, IsKeyOf, List.mem_cons] at ih ⊢
        aesop

theorem groupEntry_snd_of_attr (g : String) (r : GeoRecord) (ip : String)
    (h : isAttrMode g = true) : (groupEntry g r ip).2 = [ip] := by
  simp only [isAttrMode, Bool.or_eq_true, beq_iff_eq] at h
  rcases h with (h | h) | h <;> subst h <;> rfl

theorem groupEntry_fst_of_not_attr (g : String) (r : GeoRecord)
    (ip : String) (h : isAttrMode g = false) : (groupEntry g r ip).1 = ip := by
  simp only [isAttrMode, Bool.or_eq_false_iff, beq_eq_false_iff_ne, ne_eq]
    at h
  obtain ⟨⟨h1, h2⟩, h3⟩ := h
  simp [groupEntry, h1, h2, h3]

theorem groupEntry_snd_of_not_attr (g : String) (r : GeoRecord)
    (ip : String) (h : isAttrMode g = false) :
    (groupEntry g r ip).2 = detailBlock r := by
  simp only [isAttrMode, Bool.or_eq_false_iff, beq_eq_false_iff_ne, ne_eq]
    at h
  obtain ⟨⟨h1, h2⟩, h3⟩ := h
  simp [groupEntry, h1, h2, h3]

theorem processIp_unknown (reader : String → LookupOutcome)
    (searchPat : Option (String → Bool)) (filtered : List String)
    (group_by : String) (st st2 : RecState) (ip : String)
    (h : processIp reader searchPat filtered group_by st ip = .ok st2) :
    st2.unknown = st.unknown ++
      (if isUnresolvedIp reader filtered ip then [ip] else []) := by
  unfold processIp at h
  unfold isUnresolvedIp
  by_cases hf : ip ∈ filtered
  · rw [if_pos hf] at h
    cases h
    simp [hf]
  · rw [if_neg hf] at h
    cases hr : read_record reader ip with
    | error e => rw [hr] at h; cases h
    | ok o =>
        rw [hr] at h
        cases o with
        | none =>
            cases h
            simp [hf, hr]
        | some rec =>
            simp only at h
            cases ha : add_record searchPat rec ip with
            | true =>
                simp only [ha, if_pos] at h
                cases h
                simp [hf, hr]
            | false =>
                simp only [ha, Bool.false_eq_true, if_neg] at h
                cases h
                simp [hf, hr]

theorem processIp_result (reader : String → LookupOutcome)
    (searchPat : Option (String → Bool)) (filtered : List String)
    (group_by : String) (st st2 : RecState) (ip : String)
    (h : processIp reader searchPat filtered group_by st ip = .ok st2) :
    (∃ rec, read_record reader ip = .ok (some rec)
        ∧ contributedIp reader searchPat filtered ip = true
        ∧ st2.result = updateAL st.result
            (groupEntry group_by rec ip).1 (groupEntry group_by rec ip).2)
    ∨ (contributedIp reader searchPat filtered ip = false
        ∧ st2.result = st.result) := by
  unfold processIp at h
  unfold contributedIp
  by_cases hf : ip ∈ filtered
  · rw [if_pos hf] at h
    cases h
    right
    simp [hf]
  · rw [if_neg hf] at h
    cases hr : read_record reader ip with
    | error e => rw [hr] at h; cases h
    | ok o =>
        rw [hr] at h
        cases o with
        | none =>
            cases h
            right
            simp [hf, hr]
        | some rec =>
            simp only at h
            cases ha : add_record searchPat rec ip with
            | true =>
                simp only [ha, if_pos] at h
                cases h
                left
                exact ⟨rec, rfl, by simp [hf, ha], rfl⟩
            | false =>
                simp only [ha, Bool.false_eq_true, if_neg] at h
                cases h
                right
                simp [hf, hr, ha]

theorem get_records_go_unknown (reader : String → LookupOutcome)
    (searchPat : Option (String → Bool)) (filtered : List String)
    (group_by : String) :
    ∀ (l : List String) (st st2 : RecState),
      get_records_go reader searchPat filtered group_by st l = .ok st2 →
      st2.unknown = st.unknown ++
        l.filter (fun ip => isUnresolvedIp reader filtered ip) := by
  intro l
  induction l with
  | nil =>
      intro st st2 h
      cases h
      simp
  | cons ip rest ih =>
      intro st st2 h
      unfold get_records_go at h
      cases hp : processIp reader searchPat filtered group_by st ip with
      | error e => rw [hp] at h; cases h
      | ok st1 =>
          rw [hp] at h
          have h1 := processIp_unknown _ _ _ _ _ _ _ hp
          have h2 := ih st1 st2 h
          rw [h2, h1, List.filter_cons]
          cases hu : isUnresolvedIp reader filtered ip with
          | true => simp [List.append_assoc]
          | false => simp

theorem Aggregated_updateAL (g : String) (rec : GeoRecord)
    (ip x : String) (res : List (String × List String)) :
    Aggregated g
        (updateAL res (groupEntry g rec ip).1 (groupEntry g rec ip).2) x
      ↔ Aggregated g res x ∨ x = ip := by
  unfold Aggregated
  cases hm : isAttrMode g with
  | true =>
      simp only [if_pos]
      rw [InValues_updateAL, groupEntry_snd_of_attr _ _ _ hm]
      simp
  | false =>
      simp only [Bool.false_eq_true, if_neg]
      rw [IsKeyOf_updateAL, groupEntry_fst_of_not_attr _ _ _ hm]
      simp [eq_comm]

theorem get_records_go_aggregated (reader : String → LookupOutcome)
    (searchPat : Option (String → Bool)) (filtered : List String)
    (group_by : String) :
    ∀ (l : List String) (st st2 : RecState) (x : String),
      get_records_go reader searchPat filtered group_by st l = .ok st2 →
      (Aggregated group_by st2.result x ↔
        Aggregated group_by st.result x ∨
          (x ∈ l ∧ contributedIp reader searchPat filtered x = true)) := by
  intro l
  induction l with
  | nil =>
      intro st st2 x h
      cases h
      simp
  | cons ip rest ih =>
      intro st st2 x h
      unfold get_records_go at h
      cases hp : processIp reader searchPat filtered group_by st ip with
      | error e => rw [hp] at h; cases h
      | ok st1 =>
          rw [hp] at h
          have h2 := ih st1 st2 x h
          rcases processIp_result _ _ _ _ _ _ _ hp with
            ⟨rec, hrr, hcontrib, hres⟩ | ⟨hnc, hres⟩
          · rw [hres] at h2
            rw [h2, Aggregated_updateAL]
            by_cases hx : x = ip
            · subst hx
              simp only [List.mem_cons]
              rw [hcontrib]
              tauto
            · simp only [List.mem_cons]
              tauto
          · rw [hres] at h2
            rw [h2]
            by_cases hx : x = ip
            · subst hx
              simp only [List.mem_cons]
              rw [hnc]
              simp
            · simp only [List.mem_cons]
              tauto

theorem detailBlock_length (r : GeoRecord) : (detailBlock r).length = 5 := rfl

theorem updateAL_block_lengths (al : List (String × List String))
    (k : String) (new : List String)
    (hal : ∀ kv ∈ al, ∃ n, 0 < n ∧ kv.2.length = 5 * n)
    (hnew : new.length = 5) :
    ∀ kv ∈ updateAL al k new, ∃ n, 0 < n ∧ kv.2.length = 5 * n := by
  induction al with
  | nil =>
      intro kv hkv
      simp only [updateAL, List.mem_singleton] at hkv
      subst hkv
      exact ⟨1, Nat.one_pos, by simpa using hnew⟩
  | cons kv0 rest ih =>
      obtain ⟨k2, v⟩ := kv0
      intro kv hkv
      by_cases hk : k2 = k
      · rw [updateAL, if_pos hk] at hkv
        rcases List.mem_cons.mp hkv with hkv | hkv
        · subst hkv
          obtain ⟨n, hn, hlen⟩ := hal (k2, v) (List.mem_cons_self _ _)
          refine ⟨n + 1, Nat.succ_pos n, ?_⟩
          simp only [List.length_append, hlen, hnew]
          ring
        · exact hal kv (List.mem_cons_of_mem _ hkv)
      · rw [updateAL, if_neg hk] at hkv
        rcases List.mem_cons.mp hkv with hkv | hkv
        · subst hkv
          exact hal (k2, v) (List.mem_cons_self _ _)
        · exact ih (fun kv2 h2 => hal kv2 (List.mem_cons_of_mem _ h2)) kv hkv

theorem get_records_go_block_lengths (reader : String → LookupOutcome)
    (searchPat : Option (String → Bool)) (filtered : List String)
    (group_by : String) (hg : isAttrMode group_by = false) :
    ∀ (l : List String) (st st2 : RecState),
      get_records_go reader searchPat filtered group_by st l = .ok st2 →
      (∀ kv ∈ st.result, ∃ n, 0 < n ∧ kv.2.length = 5 * n) →
      ∀ kv ∈ st2.result, ∃ n, 0 < n ∧ kv.2.length = 5 * n := by
  intro l
  induction l with
  | nil =>
      intro st st2 h hst
      cases h
      exact hst
  | cons ip rest ih =>
      intro st st2 h hst
      unfold get_records_go at h
      cases hp : processIp reader searchPat filtered group_by st ip with
      | error e => rw [hp] at h; cases h
      | ok st1 =>
          rw [hp] at h
          refine ih st1 st2 h ?_
          rcases processIp_result _ _ _ _ _ _ _ hp with
            ⟨rec, hrr, hcontrib, hres⟩ | ⟨hnc, hres⟩
          · rw [hres]
            refine updateAL_block_lengths _ _ _ hst ?_
            rw [groupEntry_snd_of_not_attr _ _ _ hg]
            exact detailBlock_length rec
          · rw [hres]
            exact hst

theorem get_records_go_unknown_searchPat (reader : String → LookupOutcome)
    (filtered : List String) (group_by : String)
    (sp1 sp2 : Option (String → Bool)) :
    ∀ (l : List String) (st1 st2 : RecState),
      st1.unknown = st2.unknown →
      Except.map RecState.unknown
          (get_records_go reader sp1 filtered group_by st1 l)
        = Except.map RecState.unknown
            (get_records_go reader sp2 filtered group_by st2 l) := by
  intro l
  induction l with
  | nil =>
      intro st1 st2 hu
      simp [get_records_go, Except.map, hu]
  | cons ip rest ih =>
      intro st1 st2 hu
      unfold get_records_go processIp
      by_cases hf : ip ∈ filtered
      · rw [if_pos hf, if_pos hf]
        exact ih st1 st2 hu
      · rw [if_neg hf, if_neg hf]
        cases hr : read_record reader ip with
        | error e => simp [Except.map]
        | ok o =>
            cases o with
            | none =>
                simp only
                exact ih _ _ (by simp [hu])
            | some rec =>
                simp only
                cases h1 : add_record sp1 rec ip <;>
                  cases h2 : add_record sp2 rec ip <;>
                    simp only [Bool.false_eq_true, if_pos, if_neg] <;>
                      exact ih _ _ (by simp [hu])

theorem Aggregated_nil (g x : String) :
    ¬ Aggregated g ([] : List (String × List String)) x := by
  unfold Aggregated InValues IsKeyOf
  split <;> simp

theorem get_records_ok_go (reader : String → LookupOutcome)
    (ip_list : List String) (searchPat : Option (String → Bool))
    (filtered : List String) (group_by : String)
    (res : List (String × List String)) (unk : List String)
    (h : get_records reader ip_list searchPat filtered group_by
          = .ok (res, unk)) :
    get_records_go reader searchPat filtered group_by ⟨[], []⟩ ip_list
      = .ok ⟨res, unk⟩ := by
  unfold get_records at h
  cases hg : get_records_go reader searchPat filtered group_by ⟨[], []⟩
      ip_list with
  | error e => rw [hg] at h; cases h
  | ok st =>
      rw [hg] at h
      obtain ⟨r0, u0⟩ := st
      simp only [Except.map, Except.ok.injEq, Prod.mk.injEq] at h
      obtain ⟨h1, h2⟩ := h
      rw [h1, h2]

theorem get_records_unknown_eq (reader : String → LookupOutcome)
    (ip_list : List String) (searchPat : Option (String → Bool))
    (filtered : List String) (group_by : String)
    (res : List (String × List String)) (unk : List String)
    (h : get_records reader ip_list searchPat filtered group_by
          = .ok (res, unk)) :
    unk = ip_list.filter (fun ip => isUnresolvedIp reader filtered ip) := by
  have hg := get_records_ok_go _ _ _ _ _ _ _ h
  have := get_records_go_unknown reader searchPat filtered group_by
    ip_list ⟨[], []⟩ ⟨res, unk⟩ hg
  simpa using this

theorem get_records_aggregated_iff (reader : String → LookupOutcome)
    (ip_list : List String) (searchPat : Option (String → Bool))
    (filtered : List String) (group_by : String)
    (res : List (String × List String)) (unk : List String) (x : String)
    (h : get_records reader ip_list searchPat filtered group_by
          = .ok (res, unk)) :
    Aggregated group_by res x ↔
      x ∈ ip_list ∧ contributedIp reader searchPat filtered x = true := by
  have hg := get_records_ok_go _ _ _ _ _ _ _ h
  have := get_records_go_aggregated reader searchPat filtered group_by
    ip_list ⟨[], []⟩ ⟨res, unk⟩ x hg
  simp only at this
  rw [this]
  have hnil := Aggregated_nil group_by x
  tauto

theorem contributedIp_not_unresolved (reader : String → LookupOutcome)
    (searchPat : Option (String → Bool)) (filtered : List String)
    (ip : String) :
    ¬ (contributedIp reader searchPat filtered ip = true
        ∧ isUnresolvedIp reader filtered ip = true) := by
  unfold contributedIp isUnresolvedIp
  rintro ⟨h1, h2⟩
  cases hr : read_record reader ip with
  | error e => rw [hr] at h1; simp at h1
  | ok o =>
      cases o with
      | none => rw [hr] at h1; simp at h1
      | some rec => rw [hr] at h2; simp at h2

theorem insertLe_perm {α : Type} (le : α → α → Bool) (a : α)
    (l : List α) : List.Perm (insertLe le a l) (a :: l) := by
  induction l with
  | nil => exact List.Perm.refl _
  | cons b l ih =>
      unfold insertLe
      cases hba : le b a with
      | true => exact List.Perm.refl _
      | false =>
          simp only [Bool.false_eq_true, if_neg]
          exact (ih.cons b).trans (List.Perm.swap a b l)

theorem mem_insertLe {α : Type} (le : α → α → Bool) (a x : α)
    (l : List α) : x ∈ insertLe le a l ↔ x = a ∨ x ∈ l := by
  rw [(insertLe_perm le a l).mem_iff]
  exact List.mem_cons

theorem pairwise_insertLe {α : Type} (le : α → α → Bool)
    (htot : ∀ a b, le a b = true ∨ le b a = true)
    (htrans : ∀ a b c, le a b = true → le b c = true → le a c = true)
    (a : α) (l : List α)
    (h : List.Pairwise (fun x y => le y x = true) l) :
    List.Pairwise (fun x y => le y x = true) (insertLe le a l) := by
  induction l with
  | nil => simp [insertLe]
  | cons b l ih =>
      rcases List.pairwise_cons.mp h with ⟨hb, hl⟩
      unfold insertLe
      cases hba : le b a with
      | true =>
          refine List.pairwise_cons.mpr ⟨?_, h⟩
          intro y hy
          rcases List.mem_cons.mp hy with rfl | hy
          · exact hba
          · exact htrans _ _ _ (hb y hy) hba
      | false =>
          have hab : le a b = true := by
            rcases htot a b with h2 | h2
            · exact h2
            · rw [hba] at h2; cases h2
          simp only [Bool.false_eq_true, if_neg]
          refine List.pairwise_cons.mpr ⟨?_, ih hl⟩
          intro y hy
          rcases (mem_insertLe le a y l).mp hy with rfl | hy
          · exact hab
          · exact hb y hy

theorem pairwise_sortRevBy {α : Type} (le : α → α → Bool)
    (htot : ∀ a b, le a b = true ∨ le b a = true)
    (htrans : ∀ a b c, le a b = true → le b c = true → le a c = true)
    (l : List α) :
    List.Pairwise (fun x y => le y x = true) (sortRevBy le l) := by
  induction l with
  | nil => simp [sortRevBy]
  | cons a l ih => exact pairwise_insertLe le htot htrans a _ ih

theorem sortRevBy_perm {α : Type} (le : α → α → Bool) (l : List α) :
    List.Perm (sortRevBy le l) l := by
  induction l with
  | nil => exact List.Perm.refl _
  | cons a l ih =>
      unfold sortRevBy
      exact (insertLe_perm le a _).trans (ih.cons a)

theorem filter_insertLe {α : Type} (le : α → α → Bool) (a : α)
    (l : List α) (p : α → Bool)
    (hcomp : ∀ b, p a = true → p b = true → le b a = true) :
    (insertLe le a l).filter p
      = if p a then a :: l.filter p else l.filter p := by
  induction l with
  | nil => cases hpa : p a <;> simp [insertLe, List.filter, hpa]
  | cons b l ih =>
      unfold insertLe
      cases hba : le b a with
      | true => rw [if_pos rfl, List.filter_cons]
      | false =>
          simp only [Bool.false_eq_true, if_false]
          rw [List.filter_cons, ih]
          cases hpa : p a with
          | false => simp [hpa, List.filter_cons]
          | true =>
              have hpb : p b = false := by
                cases hpb2 : p b with
                | false => rfl
                | true =>
                    have := hcomp b hpa hpb2
                    rw [hba] at this
                    cases this
              simp [hpa, hpb, List.filter_cons]

theorem filter_sortRevBy {α : Type} (le : α → α → Bool) (p : α → Bool)
    (hp : ∀ a b, p a = true → p b = true → le b a = true)
    (l : List α) : (sortRevBy le l).filter p = l.filter p := by
  induction l with
  | nil => rfl
  | cons a l ih =>
      unfold sortRevBy
      rw [filter_insertLe le a _ p (fun b => hp a b), ih, List.filter_cons]

theorem charListLe_cons_iff (a b : Char) (as bs : List Char) :
    charListLe (a :: as) (b :: bs) = true ↔
      a < b ∨ (a = b ∧ charListLe as bs = true) := by
  rw [show charListLe (a :: as) (b :: bs)
      = (if a < b then true else if b < a then false else charListLe as bs)
    from rfl]
  rcases lt_trichotomy a b with h | h | h
  · simp [h]
  · subst h
    simp [lt_irrefl]
  · simp [lt_asymm h, h, h.ne']

theorem charListLe_refl (l : List Char) : charListLe l l = true := by
  induction l with
  | nil => rfl
  | cons a as ih => rw [charListLe_cons_iff]; exact Or.inr ⟨rfl, ih⟩

theorem charListLe_total (l1 l2 : List Char) :
    charListLe l1 l2 = true ∨ charListLe l2 l1 = true := by
  induction l1 generalizing l2 with
  | nil => left; rfl
  | cons a as ih =>
      cases l2 with
      | nil => right; rfl
      | cons b bs =>
          rw [charListLe_cons_iff, charListLe_cons_iff]
          rcases lt_trichotomy a b with h | h | h
          · exact Or.inl (Or.inl h)
          · subst h
            rcases ih bs with h2 | h2
            · exact Or.inl (Or.inr ⟨rfl, h2⟩)
            · exact Or.inr (Or.inr ⟨rfl, h2⟩)
          · exact Or.inr (Or.inl h)

theorem charListLe_trans (l1 l2 l3 : List Char)
    (h1 : charListLe l1 l2 = true) (h2 : charListLe l2 l3 = true) :
    charListLe l1 l3 = true := by
  induction l1 generalizing l2 l3 with
  | nil => rfl
  | cons a as ih =>
      cases l2 with
      | nil => cases h1
      | cons b bs =>
          cases l3 with
          | nil => cases h2
          | cons c cs =>
              rw [charListLe_cons_iff] at h1 h2 ⊢
              rcases h1 with h1 | ⟨rfl, h1⟩
              · rcases h2 with h2 | ⟨rfl, h2⟩
                · exact Or.inl (lt_trans h1 h2)
                · exact Or.inl h1
              · rcases h2 with h2 | ⟨rfl, h2⟩
                · exact Or.inl h2
                · exact Or.inr ⟨rfl, ih bs cs h1 h2⟩

theorem strLeB_refl (a : String) : strLeB a a = true :=
  charListLe_refl a.data

theorem strLeB_total (a b : String) :
    strLeB a b = true ∨ strLeB b a = true :=
  charListLe_total a.data b.data

theorem strLeB_trans (a b c : String) (h1 : strLeB a b = true)
    (h2 : strLeB b c = true) : strLeB a c = true :=
  charListLe_trans a.data b.data c.data h1 h2

/-- Claim C1 (amended): in every run that completes without a
database-level error, an input address is aggregated into the result
mapping exactly when it is not excluded, its lookup finds a record and
the record passes the search filter; it is listed as unresolved exactly
when it is not excluded and its lookup resolves to no record; and no
address is in both buckets.  Excluded addresses and found records
rejected by the search filter therefore end in neither bucket, contrary
to the claim as stated. -/
theorem c1_exactly_one_bucket (reader : String → LookupOutcome)
    (ip_list : List String) (searchPat : Option (String → Bool))
    (filtered : List String) (group_by : String)
    (res : List (String × List String)) (unk : List String)
    (h : get_records reader ip_list searchPat filtered group_by
          = .ok (res, unk))
    (ip : String) (hip : ip ∈ ip_list) :
    ¬ (Aggregated group_by res ip ∧ ip ∈ unk)
    ∧ (Aggregated group_by res ip ↔
        contributedIp reader searchPat filtered ip = true)
    ∧ (ip ∈ unk ↔ isUnresolvedIp reader filtered ip = true) := by
  have hagg := get_records_aggregated_iff _ _ _ _ _ _ _ ip h
  have hunk := get_records_unknown_eq _ _ _ _ _ _ _ h
  have hmem : ip ∈ unk ↔ isUnresolvedIp reader filtered ip = true := by
    rw [hunk, List.mem_filter]
    simp [hip]
  refine ⟨?_, ?_, hmem⟩
  · rintro ⟨ha, hu⟩
    exact contributedIp_not_unresolved reader searchPat filtered ip
      ⟨(hagg.mp ha).2, hmem.mp hu⟩
  · rw [hagg]
    simp [hip]

/-- Claim C1, counterexample to the claim as stated: with input
["9.9.9.9"] and exclusion set ["9.9.9.9"] the run completes, yet the
input address lands in neither bucket: the result mapping and the
unresolved list are both empty. -/
theorem c1_counterexample :
    get_records readerNotFound ["9.9.9.9"] none ["9.9.9.9"] "country"
        = .ok ([], [])
    ∧ "9.9.9.9" ∈ ["9.9.9.9"]
    ∧ ¬ Aggregated "country" [] "9.9.9.9"
    ∧ "9.9.9.9" ∉ ([] : List String) :=
  ⟨rfl, by decide, Aggregated_nil _ _, by decide⟩

/-- Witness for the amended C1 theorem at a concrete completed run with
one aggregated and one unresolved address. -/
theorem c1_exactly_one_bucket_witness :
    ¬ (Aggregated "country" [("France (FR)", ["1.1.1.1"])] "1.1.1.1"
        ∧ "1.1.1.1" ∈ ["2.2.2.2"])
    ∧ (Aggregated "country" [("France (FR)", ["1.1.1.1"])] "1.1.1.1"
        ↔ contributedIp readerW none [] "1.1.1.1" = true)
    ∧ ("1.1.1.1" ∈ ["2.2.2.2"]
        ↔ isUnresolvedIp readerW [] "1.1.1.1" = true) :=
  c1_exactly_one_bucket readerW ["1.1.1.1", "2.2.2.2"] none [] "country"
    [("France (FR)", ["1.1.1.1"])] ["2.2.2.2"] rfl "1.1.1.1" (by decide)

/-- Claim C4: an address in the exclusion set is skipped before any
lookup (the loop body returns the state unchanged, for every reader and
every search pattern) and appears nowhere in the output of a completed
run: it is not aggregated into any group of the result mapping and it is
not in the unresolved list. -/
theorem c4_excluded_address_everywhere_absent
    (reader : String → LookupOutcome) (ip_list : List String)
    (searchPat : Option (String → Bool)) (filtered : List String)
    (group_by : String) (res : List (String × List String))
    (unk : List String) (ip : String)
    (h : get_records reader ip_list searchPat filtered group_by
          = .ok (res, unk))
    (hip : ip ∈ filtered) :
    (∀ st, processIp reader searchPat filtered group_by st ip = .ok st)
    ∧ ¬ Aggregated group_by res ip
    ∧ ip ∉ unk := by
  refine ⟨fun st => by unfold processIp; rw [if_pos hip], ?_, ?_⟩
  · intro ha
    have h2 := ((get_records_aggregated_iff _ _ _ _ _ _ _ ip h).mp ha).2
    unfold contributedIp at h2
    simp [hip] at h2
  · intro hu
    rw [get_records_unknown_eq _ _ _ _ _ _ _ h] at hu
    have h2 := (List.mem_filter.mp hu).2
    unfold isUnresolvedIp at h2
    simp [hip] at h2

/-- Witness for C4 at a concrete run excluding 7.7.7.7. -/
theorem c4_excluded_address_everywhere_absent_witness :
    processIp readerNotFound none ["7.7.7.7"] "ip_address" ⟨[], []⟩
        "7.7.7.7" = .ok ⟨[], []⟩
    ∧ ¬ Aggregated "ip_address" [] "7.7.7.7"
    ∧ "7.7.7.7" ∉ ([] : List String) :=
  ⟨(c4_excluded_address_everywhere_absent readerNotFound ["7.7.7.7"] none
      ["7.7.7.7"] "ip_address" [] [] "7.7.7.7" rfl (by decide)).1 ⟨[], []⟩,
   (c4_excluded_address_everywhere_absent readerNotFound ["7.7.7.7"] none
      ["7.7.7.7"] "ip_address" [] [] "7.7.7.7" rfl (by decide)).2.1,
   (c4_excluded_address_everywhere_absent readerNotFound ["7.7.7.7"] none
      ["7.7.7.7"] "ip_address" [] [] "7.7.7.7" rfl (by decide)).2.2⟩

/-- Claim C7: for a non-excluded address whose lookup fails at address
level (absent from the database or not a syntactically valid IP), the
lookup resolves to no record, the loop appends the address to the
unresolved bucket and carries on with the remaining addresses; the
failure never raises. -/
theorem c7_address_failure_nonfatal (reader : String → LookupOutcome)
    (searchPat : Option (String → Bool)) (filtered : List String)
    (group_by : String) (ip : String) (hip : ip ∉ filtered)
    (hr : reader ip = .addressNotFound ∨ reader ip = .invalidAddress) :
    read_record reader ip = .ok none
    ∧ ∀ st rest,
        get_records_go reader searchPat filtered group_by st (ip :: rest)
          = get_records_go reader searchPat filtered group_by
              { st with unknown := st.unknown ++ [ip] } rest := by
  have hrr : read_record reader ip = .ok none := by
    unfold read_record
    rcases hr with h | h <;> rw [h]
  refine ⟨hrr, fun st rest => ?_⟩
  have hp : processIp reader searchPat filtered group_by st ip
      = .ok { st with unknown := st.unknown ++ [ip] } := by
    unfold processIp
    rw [if_neg hip, hrr]
  simp only [get_records_go, hp]

/-- Witness for C7 at a concrete unresolvable address. -/
theorem c7_address_failure_nonfatal_witness :
    read_record readerNotFound "2.2.2.2" = .ok none
    ∧ get_records_go readerNotFound none [] "country" ⟨[], []⟩ ["2.2.2.2"]
        = get_records_go readerNotFound none [] "country"
            ⟨[], ["2.2.2.2"]⟩ [] :=
  ⟨(c7_address_failure_nonfatal readerNotFound none [] "country" "2.2.2.2"
      (by decide) (Or.inl rfl)).1,
   (c7_address_failure_nonfatal readerNotFound none [] "country" "2.2.2.2"
      (by decide) (Or.inl rfl)).2 ⟨[], []⟩ []⟩

/-- Claim C9: the search filter only ever touches found records: the
unresolved component of the run output is the same for any two search
patterns (also when the run fails, the same error), and every
non-excluded input address whose lookup resolves to no record is in the
unresolved list of a completed run, whatever the pattern. -/
theorem c9_search_never_touches_unresolved
    (reader : String → LookupOutcome) (ip_list : List String)
    (filtered : List String) (group_by : String)
    (sp1 sp2 sp : Option (String → Bool))
    (res : List (String × List String)) (unk : List String)
    (ip : String) :
    Except.map (fun p => p.2)
        (get_records reader ip_list sp1 filtered group_by)
      = Except.map (fun p => p.2)
          (get_records reader ip_list sp2 filtered group_by)
    ∧ (get_records reader ip_list sp filtered group_by = .ok (res, unk) →
        ip ∈ ip_list → ip ∉ filtered → read_record reader ip = .ok none →
        ip ∈ unk) := by
  constructor
  · have h := get_records_go_unknown_searchPat reader filtered group_by
      sp1 sp2 ip_list ⟨[], []⟩ ⟨[], []⟩ rfl
    unfold get_records
    cases hg1 : get_records_go reader sp1 filtered group_by ⟨[], []⟩
        ip_list with
    | error e1 =>
        cases hg2 : get_records_go reader sp2 filtered group_by ⟨[], []⟩
            ip_list with
        | error e2 =>
            rw [hg1, hg2] at h
            simp only [Except.map] at h ⊢
            exact h
        | ok st2 =>
            rw [hg1, hg2] at h
            simp [Except.map] at h
    | ok st1 =>
        cases hg2 : get_records_go reader sp2 filtered group_by ⟨[], []⟩
            ip_list with
        | error e2 =>
            rw [hg1, hg2] at h
            simp [Except.map] at h
        | ok st2 =>
            rw [hg1, hg2] at h
            simp only [Except.map, Except.ok.injEq] at h ⊢
            exact h
  · intro h hmem hnf hread
    rw [get_records_unknown_eq _ _ _ _ _ _ _ h, List.mem_filter]
    refine ⟨hmem, ?_⟩
    unfold isUnresolvedIp
    simp [hnf, hread]

/-- Witness for C9 at a concrete run: a pattern matching nothing leaves
the unresolved list identical to the one a run without a pattern
produces, and the unresolvable address is in it. -/
theorem c9_search_never_touches_unresolved_witness :
    Except.map (fun p => p.2)
        (get_records readerW ["1.1.1.1", "2.2.2.2"]
          (some (compileIgnoreCase (fun s => s == "zzz"))) [] "country")
      = Except.map (fun p => p.2)
          (get_records readerW ["1.1.1.1", "2.2.2.2"] none [] "country")
    ∧ "2.2.2.2" ∈ ["2.2.2.2"] :=
  ⟨(c9_search_never_touches_unresolved readerW ["1.1.1.1", "2.2.2.2"] []
      "country" (some (compileIgnoreCase (fun s => s == "zzz"))) none none
      [("France (FR)", ["1.1.1.1"])] ["2.2.2.2"] "2.2.2.2").1,
   (c9_search_never_touches_unresolved readerW ["1.1.1.1", "2.2.2.2"] []
      "country" (some (compileIgnoreCase (fun s => s == "zzz"))) none none
      [("France (FR)", ["1.1.1.1"])] ["2.2.2.2"] "2.2.2.2").2 rfl
     (by decide) (by decide) rfl⟩

/-- Claim C6: with a configured pattern (compiled case-insensitively, so
the underlying matcher sees lowercased text), a found record is kept if
and only if the matcher accepts at least one of the composed country
string, the state/region name, the city name or the raw address; with
no pattern, every found record is kept. -/
theorem c6_search_filter_semantics (m : String → Bool) (r : GeoRecord)
    (ip : String) :
    (add_record (some (compileIgnoreCase m)) r ip = true ↔
      (m (countryFullOf r).toLower = true
        ∨ m (stateOf r).toLower = true
        ∨ m (cityOf r).toLower = true
        ∨ m ip.toLower = true))
    ∧ add_record none r ip = true := by
  constructor
  · unfold add_record compileIgnoreCase
    simp [Bool.or_eq_true, or_assoc]
  · rfl

/-- Claim C10: in ip_address grouping mode the accumulated list of every
group of a completed run has length a positive multiple of five (one
five-line block per contributing occurrence), so the element at index 2
that the sort key reads is always in bounds. -/
theorem c10_block_lengths (reader : String → LookupOutcome)
    (ip_list : List String) (searchPat : Option (String → Bool))
    (filtered : List String) (res : List (String × List String))
    (unk : List String)
    (h : get_records reader ip_list searchPat filtered "ip_address"
          = .ok (res, unk)) :
    ∀ kv ∈ res, (∃ n, 0 < n ∧ kv.2.length = 5 * n) ∧ 2 < kv.2.length := by
  have hg := get_records_ok_go _ _ _ _ _ _ _ h
  have hb := get_records_go_block_lengths reader searchPat filtered
    "ip_address" rfl ip_list ⟨[], []⟩ ⟨res, unk⟩ hg (by simp)
  intro kv hkv
  obtain ⟨n, hn, hlen⟩ := hb kv hkv
  exact ⟨⟨n, hn, hlen⟩, by omega⟩

/-- Witness for C10 at a concrete run producing one group. -/
theorem c10_block_lengths_witness :
    (∃ n, 0 < n ∧ ("1.1.1.1", detailBlock recParis).2.length = 5 * n)
    ∧ 2 < ("1.1.1.1", detailBlock recParis).2.length :=
  c10_block_lengths readerW ["1.1.1.1"] none []
    [("1.1.1.1", detailBlock recParis)] [] rfl
    ("1.1.1.1", detailBlock recParis) (List.mem_singleton.mpr rfl)

/-- Claim C3 (amended): in ip_address mode the first line of the detail
block carries the Google Maps URL built from the two coordinates
formatted with the 0>3.9f spec whenever both coordinates are present
and nonzero; it carries Null when either coordinate is absent or when
either equals zero (Python truthiness makes a zero coordinate fall into
the Null branch, contrary to the claim as stated). -/
theorem c3_maps_url (r : GeoRecord) (a b : Rat) :
    (r.latitude = some a → r.longitude = some b → a ≠ 0 → b ≠ 0 →
      mapsUrlOf r = "https://maps.google.com/maps?q=" ++ formatCoord a
        ++ "," ++ formatCoord b ++ "&z=15")
    ∧ (r.latitude = none ∨ r.longitude = none
        ∨ r.latitude = some 0 ∨ r.longitude = some 0 →
      mapsUrlOf r = "Null") := by
  constructor
  · intro ha hb ha0 hb0
    simp [mapsUrlOf, ha, hb, coordTruthy, ha0, hb0]
  · intro h
    rcases h with h | h | h | h <;> simp [mapsUrlOf, h, coordTruthy]

/-- Claim C3, counterexample to the claim as stated: a record with both
coordinates present, latitude zero, gets the literal Null, not a URL. -/
theorem c3_counterexample :
    recZeroLat.latitude.isSome = true
    ∧ recZeroLat.longitude.isSome = true
    ∧ mapsUrlOf recZeroLat = "Null" :=
  ⟨rfl, rfl, rfl⟩

/-- Witness for the amended C3 theorem: a record with nonzero
coordinates gets the URL, a record with absent coordinates gets Null. -/
theorem c3_maps_url_witness :
    mapsUrlOf recParis = "https://maps.google.com/maps?q="
        ++ formatCoord 48 ++ "," ++ formatCoord 2 ++ "&z=15"
    ∧ mapsUrlOf recNoCoords = "Null" :=
  ⟨(c3_maps_url recParis 48 2).1 rfl rfl (by decide) (by decide),
   (c3_maps_url recNoCoords 0 0).2 (Or.inl rfl)⟩

theorem append_left_ne_empty (s t : String) (h : 0 < s.length) :
    s ++ t ≠ "" := by
  intro heq
  have h2 := congrArg String.length heq
  rw [String.length_append] at h2
  simp only [String.length, List.length_nil] at h2 h
  omega

/-- Claim C5 (amended): for every found record, a missing city,
state/region or country name renders as Unknown and a missing accuracy
radius renders as Null; every line of the detail block is non-empty; but
the optional country ISO code, when missing, yields the empty suffix
(the ISO is simply omitted from the composed country string), not a
normalized placeholder, contrary to the claim as stated. -/
theorem c5_missing_field_normalization (r : GeoRecord) :
    (r.cityName = none → cityOf r = "Unknown")
    ∧ (r.subdivisionName = none → stateOf r = "Unknown")
    ∧ (r.countryName = none → countryNameOf r = "Unknown")
    ∧ (r.accuracyRadius = none → radiusStrOf r = "Null")
    ∧ (∀ line ∈ detailBlock r, line ≠ "")
    ∧ (r.countryIsoCode = none → countryIsoOf r = "") := by
  refine ⟨fun h => by simp [cityOf, h], fun h => by simp [stateOf, h],
    fun h => by simp [countryNameOf, h], fun h => by simp [radiusStrOf, h],
    ?_, fun h => by simp [countryIsoOf, h]⟩
  intro line hline
  simp only [detailBlock, List.mem_cons, List.not_mem_nil, or_false]
    at hline
  rcases hline with h | h | h | h | h <;> subst h <;>
    exact append_left_ne_empty _ _ (by decide)

/-- Claim C5, counterexample to the claim as stated: a record whose
only missing optional field is the country ISO code renders the ISO
suffix as the empty string, which is neither Unknown nor Null, and the
composed country string carries no trace of the missing field. -/
theorem c5_counterexample :
    recFranceNoIso.countryIsoCode = none
    ∧ countryIsoOf recFranceNoIso = ""
    ∧ countryIsoOf recFranceNoIso ≠ "Unknown"
    ∧ countryIsoOf recFranceNoIso ≠ "Null"
    ∧ countryFullOf recFranceNoIso = "France" :=
  ⟨rfl, rfl, by decide, by decide, rfl⟩

/-- Witness for the amended C5 theorem at a record with every optional
field absent. -/
theorem c5_missing_field_normalization_witness :
    cityOf recAllNone = "Unknown"
    ∧ stateOf recAllNone = "Unknown"
    ∧ countryNameOf recAllNone = "Unknown"
    ∧ radiusStrOf recAllNone = "Null"
    ∧ ("Radius(km): " ++ radiusStrOf recAllNone) ≠ ""
    ∧ countryIsoOf recAllNone = "" :=
  ⟨(c5_missing_field_normalization recAllNone).1 rfl,
   (c5_missing_field_normalization recAllNone).2.1 rfl,
   (c5_missing_field_normalization recAllNone).2.2.1 rfl,
   (c5_missing_field_normalization recAllNone).2.2.2.1 rfl,
   (c5_missing_field_normalization recAllNone).2.2.2.2.1
     ("Radius(km): " ++ radiusStrOf recAllNone)
     (by simp [detailBlock]),
   (c5_missing_field_normalization recAllNone).2.2.2.2.2 rfl⟩

/-- Claim C8: a limit of zero or below leaves the extracted address
sequence whole, and a positive limit N cuts it to exactly its first N
elements (the cut list put back in front of the dropped remainder gives
the original sequence, and its length is the minimum of N and the
number of matches). -/
theorem c8_limit_semantics (limit : Int) (ms : List String) :
    (limit ≤ 0 → applyLimit limit ms = ms)
    ∧ (0 < limit →
        applyLimit limit ms = ms.take limit.toNat
        ∧ (applyLimit limit ms).length = min limit.toNat ms.length
        ∧ applyLimit limit ms ++ ms.drop limit.toNat = ms) := by
  constructor
  · intro h
    unfold applyLimit
    rw [if_pos (by omega)]
  · intro h
    have h1 : applyLimit limit ms = ms.take limit.toNat := by
      unfold applyLimit
      rw [if_neg (by omega)]
    refine ⟨h1, ?_, ?_⟩
    · rw [h1, List.length_take]
    · rw [h1, List.take_append_drop]

/-- Witness for C8: limits 0 and -5 keep all ten matches, limit 3 keeps
exactly the first three. -/
theorem c8_limit_semantics_witness :
    applyLimit 0 ["10.0.0.1", "10.0.0.2"] = ["10.0.0.1", "10.0.0.2"]
    ∧ applyLimit (-5) ["10.0.0.1", "10.0.0.2"]
        = ["10.0.0.1", "10.0.0.2"]
    ∧ applyLimit 3
        ["10.0.0.1", "10.0.0.2", "10.0.0.3", "10.0.0.4", "10.0.0.5",
         "10.0.0.6", "10.0.0.7", "10.0.0.8", "10.0.0.9", "10.0.0.10"]
        = ["10.0.0.1", "10.0.0.2", "10.0.0.3"] :=
  ⟨(c8_limit_semantics 0 _).1 (by decide),
   (c8_limit_semantics (-5) _).1 (by decide),
   by
     rw [((c8_limit_semantics 3 _).2 (by decide)).1]
     rfl⟩

/-- Claim C2 (amended): a non-empty result mapping is rendered in the
order sortResult produces, which sorts groups descending by the number
of accumulated entries in the country, state/region and city modes, and
descending by the element at index 2 of the accumulated line list — the
Country line of the first detail block, compared as Python compares
strings — in ip_address mode (not by the radius value the claim as
stated names); the output is a permutation of the grouped items and
ties keep the order the grouping produced (elements with an equal sort
key appear in their original relative order). -/
theorem c2_sort_order (group_by : String)
    (items : List (String × List String)) :
    ((group_by = "country" ∨ group_by = "state/region"
        ∨ group_by = "city") →
      List.Perm (sortResult group_by items) items
      ∧ List.Pairwise (fun x y => y.2.length ≤ x.2.length)
          (sortResult group_by items)
      ∧ ∀ n : Nat,
          (sortResult group_by items).filter
              (fun x => decide (x.2.length = n))
            = items.filter (fun x => decide (x.2.length = n)))
    ∧ (group_by = "ip_address" →
      List.Perm (sortResult group_by items) items
      ∧ List.Pairwise
          (fun x y => strLeB (y.2.getD 2 "") (x.2.getD 2 "") = true)
          (sortResult group_by items)
      ∧ ∀ s : String,
          (sortResult group_by items).filter
              (fun x => decide (x.2.getD 2 "" = s))
            = items.filter (fun x => decide (x.2.getD 2 "" = s))) := by
  constructor
  · intro hattr
    have hs : sortResult group_by items
        = sortRevBy (fun x y => decide (x.2.length ≤ y.2.length)) items := by
      unfold sortResult
      rw [if_pos hattr]
    refine ⟨?_, ?_, ?_⟩
    · rw [hs]
      exact sortRevBy_perm _ _
    · rw [hs]
      have hp := pairwise_sortRevBy
        (fun x y : String × List String =>
          decide (x.2.length ≤ y.2.length))
        (fun a b => by
          rcases Nat.le_total a.2.length b.2.length with h | h
          · exact Or.inl (decide_eq_true h)
          · exact Or.inr (decide_eq_true h))
        (fun a b c h1 h2 => decide_eq_true
          (Nat.le_trans (of_decide_eq_true h1) (of_decide_eq_true h2)))
        items
      exact hp.imp fun h => of_decide_eq_true h
    · intro n
      rw [hs]
      refine filter_sortRevBy _ _ ?_ items
      intro a b ha hb
      have ha2 := of_decide_eq_true ha
      have hb2 := of_decide_eq_true hb
      exact decide_eq_true (by rw [ha2, hb2])
  · intro hip
    subst hip
    have hs : sortResult "ip_address" items
        = sortRevBy
            (fun x y => strLeB (x.2.getD 2 "") (y.2.getD 2 "")) items := by
      unfold sortResult
      rw [if_neg (by decide)]
    refine ⟨?_, ?_, ?_⟩
    · rw [hs]
      exact sortRevBy_perm _ _
    · rw [hs]
      exact pairwise_sortRevBy
        (fun x y : String × List String =>
          strLeB (x.2.getD 2 "") (y.2.getD 2 ""))
        (fun a b => strLeB_total _ _)
        (fun a b c h1 h2 => strLeB_trans _ _ _ h1 h2)
        items
    · intro s
      rw [hs]
      refine filter_sortRevBy _ _ ?_ items
      intro a b ha hb
      have ha2 := of_decide_eq_true ha
      have hb2 := of_decide_eq_true hb
      rw [ha2, hb2]
      exact strLeB_refl s

/-- Claim C2, counterexample to the claim as stated: in ip_address mode
the code orders the two items by their Country lines (Zimbabwe before
Albania), while ordering descending on the radius value (500 before
100, whether the radius lines are compared as numbers or as strings)
would put them the other way round. -/
theorem c2_counterexample :
    sortResult "ip_address" [itemAlb, itemZim] = [itemZim, itemAlb]
    ∧ sortResultRadius [itemAlb, itemZim] = [itemAlb, itemZim] :=
  ⟨by decide, by decide⟩

/-- Witness for the amended C2 theorem at concrete runs of both mode
classes. -/
theorem c2_sort_order_witness :
    List.Perm
        (sortResult "country" [("A", ["1.1.1.1"]), ("B", ["2.2.2.2", "3.3.3.3"])])
        [("A", ["1.1.1.1"]), ("B", ["2.2.2.2", "3.3.3.3"])]
    ∧ List.Pairwise (fun x y => y.2.length ≤ x.2.length)
        (sortResult "country" [("A", ["1.1.1.1"]), ("B", ["2.2.2.2", "3.3.3.3"])])
    ∧ (sortResult "country" [("A", ["1.1.1.1"]), ("B", ["2.2.2.2", "3.3.3.3"])]).filter
          (fun x => decide (x.2.length = 1))
        = [("A", ["1.1.1.1"]), ("B", ["2.2.2.2", "3.3.3.3"])].filter
            (fun x => decide (x.2.length = 1))
    ∧ List.Perm (sortResult "ip_address" [itemAlb, itemZim])
        [itemAlb, itemZim]
    ∧ List.Pairwise
        (fun x y => strLeB (y.2.getD 2 "") (x.2.getD 2 "") = true)
        (sortResult "ip_address" [itemAlb, itemZim])
    ∧ (sortResult "ip_address" [itemAlb, itemZim]).filter
          (fun x => decide (x.2.getD 2 "" = "Country:    Albania"))
        = [itemAlb, itemZim].filter
            (fun x => decide (x.2.getD 2 "" = "Country:    Albania")) :=
  ⟨((c2_sort_order "country" _).1 (Or.inl rfl)).1,
   ((c2_sort_order "country" _).1 (Or.inl rfl)).2.1,
   ((c2_sort_order "country" _).1 (Or.inl rfl)).2.2 1,
   ((c2_sort_order "ip_address" _).2 rfl).1,
   ((c2_sort_order "ip_address" _).2 rfl).2.1,
   ((c2_sort_order "ip_address" _).2 rfl).2.2 "Country:    Albania"⟩
